import Mathlib

/-!
# Verification of the minerd mining template service

Shallow embedding of the template cache and long-poll core of
`api/server.go` (the `server` struct, `invalidateCachedTemplate`,
`shouldRegenerateTemplate`, `shouldPoolChangeInvalidateTemplate`,
`miningGetBlockTemplateHandler`, `miningSubmitBlockTemplateHandler`,
`newServer` / `NewServer`), together with theorems settling the frozen
claims about it.

Modelling conventions:

* Wall-clock instants and durations are integers in one abstract time
  unit.  In Go the template timestamp is an `int32` of Unix seconds and
  durations are `int64` nanoseconds; the handler only ever compares
  `time.Since(blockTime)` against a duration and arms `time.After`
  at `blockTime + maxAge`, both order-preserving in this abstraction.
* Go channels used as one-shot broadcast signals are modelled by
  allocation identifiers (`Nat`): the server state carries the id of the
  currently installed channel, a fresh-id allocator, and the list of ids
  that have been closed.
* `generateBlockTemplate` lives in `mining.go`, which only snapshots the
  chain manager; the handler semantics takes its outcome as an oracle
  argument of each handler step, so every theorem quantifies over what
  the builder may produce.
* The concurrent system (one observed request handler, other handlers,
  the chain manager callbacks, the wall clock, the request context) is a
  step function on a `World`, driven by an explicit event trace: each
  event is one atomic access to the shared state, at the granularity of
  the Go code's critical sections.
-/

/-- Modelled from the spec: the template response type
`MiningGetBlockTemplateResponse` is declared in `mining.go`, which is not
part of the sources at hand.  The cache core reads exactly two of its
fields: `longpollid` (a fingerprint string) and `curtime` (the embedded
`int32` Unix timestamp, named `Timestamp` in `server_test.go`).  The
remaining response fields (transactions, payout, target, ...) are
carried opaquely in `payload`. -/
structure MiningGetBlockTemplateResponse where
  longPollID : String
  timestamp : Int
  payload : Nat
  deriving Repr, DecidableEq

/-- Request body of `POST /getblocktemplate`: `{"longpollid": ...}`. -/
structure MiningGetBlockTemplateRequest where
  longPollID : String
  deriving Repr, DecidableEq

/-- Request body of `POST /submitblock`: `{"params": [...]}`. -/
structure MiningSubmitBlockRequest where
  params : List String
  deriving Repr, DecidableEq

/-- Sia addresses, abstracted to their identity; the server only ever
compares the configured payout address against `types.VoidAddress`. -/
abbrev Address := Nat

/-- `types.VoidAddress`, the all-zero address. -/
def VoidAddress : Address := 0

/-- The mutable fields of the Go `server` struct that the template cache
and its callbacks touch, plus the channel-allocation bookkeeping that
stands in for Go's channel identity. -/
structure ServerState where
  payoutAddr : Address
  cachedTemplateMaxAge : Int
  poolInvalidationTimeout : Int
  cachedTemplate : Option MiningGetBlockTemplateResponse
  cachedTemplateInvalidated : Option Nat
  nextChan : Nat
  closedChans : List Nat
  lastPoolInvalidate : Int
  deriving Repr, DecidableEq

/-- `server.invalidateCachedTemplate`: under the cache lock, set the
slot to nil, close the current invalidation channel (Go guards the
close with a nil check), and install a freshly made channel. -/
def invalidateCachedTemplate (s : ServerState) : ServerState :=
  { s with
    cachedTemplate := none
    closedChans :=
      match s.cachedTemplateInvalidated with
      | some c => c :: s.closedChans
      | none => s.closedChans
    cachedTemplateInvalidated := some s.nextChan
    nextChan := s.nextChan + 1 }

/-- `server.shouldRegenerateTemplate`: regenerate when no template is
cached, never when `cachedTemplateMaxAge == 0`, and otherwise when
`time.Since(time.Unix(template.Timestamp, 0)) >= cachedTemplateMaxAge`. -/
def shouldRegenerateTemplate (now : Int) (s : ServerState) : Bool :=
  match s.cachedTemplate with
  | none => true
  | some t =>
    if s.cachedTemplateMaxAge = 0 then false
    else decide (now - t.timestamp ≥ s.cachedTemplateMaxAge)

/-- `server.shouldPoolChangeInvalidateTemplate`: under the cache lock,
drop the pool change if the previous permitted one was less than
`poolInvalidationTimeout` ago, otherwise stamp `lastPoolInvalidate`
with the current time and permit it. -/
def shouldPoolChangeInvalidateTemplate (now : Int) (s : ServerState) :
    Bool × ServerState :=
  if now - s.lastPoolInvalidate < s.poolInvalidationTimeout then
    (false, s)
  else
    (true, { s with lastPoolInvalidate := now })

/-- `newServer`: the freshly constructed server before options are
applied: no cached template, a live (never closed) invalidation channel,
zero `lastPoolInvalidate`, `poolInvalidationTimeout` of 200 ms (written
here as 200 abstract units), and `cachedTemplateMaxAge` zero. -/
def newServerState (payoutAddr : Address) : ServerState :=
  { payoutAddr := payoutAddr
    cachedTemplateMaxAge := 0
    poolInvalidationTimeout := 200
    cachedTemplate := none
    cachedTemplateInvalidated := some 0
    nextChan := 1
    closedChans := []
    lastPoolInvalidate := 0 }

/-- `WithMaxTemplateAge`: the server option applied by `NewServer`. -/
def withMaxTemplateAge (maxAge : Int) (s : ServerState) : ServerState :=
  { s with cachedTemplateMaxAge := maxAge }

/-- What `miningGetBlockTemplateHandler` has written to the response
when it returns. -/
inductive HandlerResult where
  /-- `jc.Encode(s.cachedTemplate)`: the body is the value of the shared
  `cachedTemplate` pointer at the moment of the encode (a `nil` pointer
  encodes as JSON `null`). -/
  | encoded (body : Option MiningGetBlockTemplateResponse)
  /-- `jc.Error(..., http.StatusServiceUnavailable)`: payout address
  unset. -/
  | error503
  /-- `jc.Check("failed to get template", err)`: the template builder
  failed; jape's `Check` responds with status 500. -/
  | error500
  /-- The request context was cancelled while parked in the select; the
  handler returns without writing a body. -/
  | cancelled
  /-- Dereference of a nil `cachedTemplate` (unreachable, see
  `shouldRegenerateTemplate`). -/
  | panicked
  deriving Repr, DecidableEq

/-- Control state of one observed `miningGetBlockTemplateHandler`
invocation, cut at its accesses to shared state. -/
inductive HandlerPhase where
  /-- About to run the payout-address guard. -/
  | start
  /-- At the top of the `for` loop, about to run the locked closure. -/
  | ready
  /-- The captured template's `LongPollID` differed from the request's;
  about to execute `jc.Encode(s.cachedTemplate)`, which re-reads the
  shared slot outside the lock. -/
  | encode (captured : MiningGetBlockTemplateResponse)
  /-- Parked in the `select` on the captured invalidation channel, the
  optional max-age timer (absolute deadline), and the request context. -/
  | waiting (captured : MiningGetBlockTemplateResponse)
      (invalidateChan : Option Nat) (maxAgeDeadline : Option Int)
  /-- The handler returned. -/
  | done (r : HandlerResult)
  deriving Repr, DecidableEq

/-- The shared system: server state, wall clock, the observed request's
context flag, request body, and handler control state. -/
structure World where
  server : ServerState
  now : Int
  ctxDone : Bool
  req : MiningGetBlockTemplateRequest
  handler : HandlerPhase
  deriving Repr, DecidableEq

/-- Lines 139-150 of `server.go`, after the locked closure returned the
captured pair: compare the captured `LongPollID` with the request's; on
a mismatch move to the encode, otherwise arm the max-age timer at
`time.Unix(Timestamp, 0).Add(maxAge)` (only when `maxAge > 0`) and park
in the select. -/
def afterLockedSection (req : MiningGetBlockTemplateRequest)
    (t : MiningGetBlockTemplateResponse) (invalidateChan : Option Nat)
    (maxAge : Int) : HandlerPhase :=
  if t.longPollID ≠ req.longPollID then
    .encode t
  else
    .waiting t invalidateChan
      (if maxAge > 0 then some (t.timestamp + maxAge) else none)

/-- One non-blocking step of the observed handler.  `gen` is the outcome
`generateBlockTemplate(s.cm, s.payoutAddr)` would have if the step runs
the builder.  At `start` this is the payout-address guard; at `ready` it
is the whole locked closure (regenerate if required, install, capture)
followed by the thread-local error check and `LongPollID` comparison; at
`encode` it is the unlocked `jc.Encode(s.cachedTemplate)`.  Parked and
finished handlers do not move. -/
def handlerStepFn (w : World)
    (gen : Except Unit MiningGetBlockTemplateResponse) : World :=
  match w.handler with
  | .start =>
    if w.server.payoutAddr = VoidAddress then
      { w with handler := .done .error503 }
    else
      { w with handler := .ready }
  | .ready =>
    if shouldRegenerateTemplate w.now w.server then
      match gen with
      | .error _ => { w with handler := .done .error500 }
      | .ok t =>
        let s' := { w.server with cachedTemplate := some t }
        { w with
          server := s'
          handler := afterLockedSection w.req t
            s'.cachedTemplateInvalidated s'.cachedTemplateMaxAge }
    else
      match w.server.cachedTemplate with
      | none => { w with handler := .done .panicked }
      | some t =>
        { w with
          handler := afterLockedSection w.req t
            w.server.cachedTemplateInvalidated
            w.server.cachedTemplateMaxAge }
  | .encode _ =>
    { w with handler := .done (.encoded w.server.cachedTemplate) }
  | .waiting _ _ _ => w
  | .done _ => w

deriving instance DecidableEq for Except

/-- Events of the concurrent system.  The three `select...` events
resolve the parked select of the observed handler; each is enabled only
when its channel is ready, mirroring Go's select. -/
inductive Event where
  /-- The observed handler runs its next non-blocking step; the payload
  is the builder oracle for this step. -/
  | handlerStep (gen : Except Unit MiningGetBlockTemplateResponse)
  /-- The parked select takes the `invalidateChan` branch (enabled only
  if that channel has been closed; a nil channel never fires). -/
  | selectInvalidated
  /-- The parked select takes the `maxAgeChan` branch (enabled only
  once the wall clock has reached the armed deadline). -/
  | selectMaxAge
  /-- The parked select takes the `jc.Request.Context().Done()` branch
  (enabled only if the context has been cancelled). -/
  | selectCtx
  /-- A direct `invalidateCachedTemplate` call. -/
  | invalidate
  /-- The `OnReorg` callback registered in `NewServer`: always calls
  `invalidateCachedTemplate`. -/
  | reorg
  /-- The `OnPoolChange` callback registered in `NewServer`: calls
  `invalidateCachedTemplate` only if
  `shouldPoolChangeInvalidateTemplate` permits it. -/
  | poolChange
  /-- The locked closure of some other concurrent `getblocktemplate`
  request (its only shared-state effect). -/
  | otherGet (gen : Except Unit MiningGetBlockTemplateResponse)
  /-- The observed request's context is cancelled. -/
  | cancelCtx
  /-- The wall clock advances by `d`. -/
  | advanceTime (d : Nat)
  deriving Repr, DecidableEq

/-- The effect of the locked closure of a concurrent request on the
shared state: install a fresh template when regeneration is required
and the builder succeeds; otherwise leave the state unchanged. -/
def otherGetFn (w : World)
    (gen : Except Unit MiningGetBlockTemplateResponse) : World :=
  if shouldRegenerateTemplate w.now w.server then
    match gen with
    | .error _ => w
    | .ok t => { w with server := { w.server with cachedTemplate := some t } }
  else
    w

/-- Small-step interleaving semantics: one event against the world. -/
def step (w : World) : Event → World
  | .handlerStep gen => handlerStepFn w gen
  | .selectInvalidated =>
    match w.handler with
    | .waiting _ (some c) _ =>
      if w.server.closedChans.contains c then
        { w with handler := .ready }
      else w
    | _ => w
  | .selectMaxAge =>
    match w.handler with
    | .waiting _ _ (some dl) =>
      if w.now ≥ dl then { w with handler := .ready } else w
    | _ => w
  | .selectCtx =>
    match w.handler with
    | .waiting _ _ _ =>
      if w.ctxDone then { w with handler := .done .cancelled } else w
    | _ => w
  | .invalidate => { w with server := invalidateCachedTemplate w.server }
  | .reorg => { w with server := invalidateCachedTemplate w.server }
  | .poolChange =>
    let (ok, s') := shouldPoolChangeInvalidateTemplate w.now w.server
    { w with server := if ok then invalidateCachedTemplate s' else s' }
  | .otherGet gen => otherGetFn w gen
  | .cancelCtx => { w with ctxDone := true }
  | .advanceTime d => { w with now := w.now + d }

/-- Run a trace of events. -/
def run (w : World) : List Event → World
  | [] => w
  | e :: es => run (step w e) es

/-- Whether processing event `e` in world `w` invokes
`invalidateCachedTemplate`. -/
def stepInvalidates (w : World) : Event → Bool
  | .invalidate => true
  | .reorg => true
  | .poolChange => (shouldPoolChangeInvalidateTemplate w.now w.server).1
  | _ => false

/-- Whether any event of the trace invokes `invalidateCachedTemplate`
at its point of execution. -/
def traceInvalidates (w : World) : List Event → Bool
  | [] => false
  | e :: es => stepInvalidates w e || traceInvalidates (step w e) es

/-! ## Submit pipeline (`miningSubmitBlockTemplateHandler`) -/

/-- Decoded blocks, abstracted to their identity; the handler treats the
decoded block opaquely (passes it to `AddBlocks`, `Header()` and
`OutlineBlock`). -/
abbrev Block := Nat

/-- Raw bytes produced by hex-decoding. -/
abbrev RawBytes := List Nat

/-- Value of one hexadecimal digit, as in Go's `encoding/hex`. -/
def hexDigitValue (c : Char) : Option Nat :=
  if '0' ≤ c ∧ c ≤ '9' then some (c.toNat - '0'.toNat)
  else if 'a' ≤ c ∧ c ≤ 'f' then some (c.toNat - 'a'.toNat + 10)
  else if 'A' ≤ c ∧ c ≤ 'F' then some (c.toNat - 'A'.toNat + 10)
  else none

/-- Go's `hex.DecodeString` on a character list: two digits per byte,
failing on an odd-length input or a non-hex character. -/
def hexDecodeChars : List Char → Option RawBytes
  | [] => some []
  | [_] => none
  | hi :: lo :: rest => do
    let h ← hexDigitValue hi
    let l ← hexDigitValue lo
    let r ← hexDecodeChars rest
    pure ((16 * h + l) :: r)

/-- Go's `hex.DecodeString`. -/
def hexDecodeString (s : String) : Option RawBytes :=
  hexDecodeChars s.toList

/-- The broadcast the submit handler hands to the syncer on acceptance:
either `BroadcastHeader(block.Header())` or
`BroadcastV2BlockOutline(gateway.OutlineBlock(block, v1Pool, v2Pool))`.
The header is a function of the block, and the outline a function of
the block and the two pool snapshots, so each is recorded by its
arguments. -/
inductive BroadcastAction where
  | header (b : Block)
  | v2Outline (b : Block) (v1Pool : List Nat) (v2Pool : List Nat)
  deriving Repr, DecidableEq

/-- The chain-manager and syncer snapshot a single `submitblock` request
observes: the tip height, the network's `HardforkV2.AllowHeight`, the
two wire decoders, the result of `AddBlocks`, the two pool snapshots,
and the results of the two broadcast calls. -/
structure SubmitEnv where
  tipHeight : Nat
  v2AllowHeight : Nat
  decodeV1 : RawBytes → Except Unit Block
  decodeV2 : RawBytes → Except Unit Block
  addBlocks : Block → Except Unit Unit
  poolTxns : List Nat
  v2PoolTxns : List Nat
  broadcastHeaderResult : Except Unit Unit
  broadcastOutlineResult : Except Unit Unit

/-- What a `submitblock` request did: the HTTP status written, the block
passed to `AddBlocks` (if it was called), the broadcast that was issued
(if any), and which wire decoder ran (if decoding was reached). -/
structure SubmitOutcome where
  status : Nat
  addBlocksCalledWith : Option Block
  broadcast : Option BroadcastAction
  usedV2Decoder : Option Bool
  deriving Repr, DecidableEq

/-- `miningSubmitBlockTemplateHandler`, after the JSON body has been
decoded: reject an empty `params` array with 400; hex-decode
`params[0]` (`jc.Check` responds 500 on failure); pick the V1 decoder
iff `Tip().Height < Network.HardforkV2.AllowHeight` and the V2 decoder
otherwise (500 on a decoder error); call `AddBlocks` (500 on error);
broadcast the header (V1) or the outline built from the block and the
current pools (V2), responding 500 on a broadcast error and 200
otherwise. -/
def miningSubmitBlockTemplateHandler (env : SubmitEnv)
    (req : MiningSubmitBlockRequest) : SubmitOutcome :=
  match req.params with
  | [] => ⟨400, none, none, none⟩
  | p :: _ =>
    match hexDecodeString p with
    | none => ⟨500, none, none, none⟩
    | some rawBlock =>
      let isV2 : Bool := decide (env.tipHeight ≥ env.v2AllowHeight)
      let decoded := if isV2 then env.decodeV2 rawBlock else env.decodeV1 rawBlock
      match decoded with
      | .error _ => ⟨500, none, none, some isV2⟩
      | .ok block =>
        match env.addBlocks block with
        | .error _ => ⟨500, some block, none, some isV2⟩
        | .ok _ =>
          if isV2 then
            match env.broadcastOutlineResult with
            | .error _ =>
              ⟨500, some block,
                some (.v2Outline block env.poolTxns env.v2PoolTxns), some isV2⟩
            | .ok _ =>
              ⟨200, some block,
                some (.v2Outline block env.poolTxns env.v2PoolTxns), some isV2⟩
          else
            match env.broadcastHeaderResult with
            | .error _ => ⟨500, some block, some (.header block), some isV2⟩
            | .ok _ => ⟨200, some block, some (.header block), some isV2⟩

/-! ## Definitions used by the claim statements and witnesses -/

/-- The regeneration condition in the claim's own words (for comparison
with `shouldRegenerateTemplate`, which is translated from the code):
the slot is nil, or `maxTemplateAge > 0` (strictly positive) and `now`
minus the cached template's embedded timestamp is at least
`maxTemplateAge`. -/
def claimedRegenerateCondition (now : Int) (s : ServerState) : Bool :=
  match s.cachedTemplate with
  | none => true
  | some t =>
    decide (0 < s.cachedTemplateMaxAge) &&
      decide (now - t.timestamp ≥ s.cachedTemplateMaxAge)

/-- The channel-bookkeeping invariant of the template cache: every
closed channel id was allocated, the currently installed invalidation
channel exists, was allocated, and has not been closed, and no channel
id occurs twice in the closed list (a channel is never closed twice). -/
def goodServer (s : ServerState) : Bool :=
  s.closedChans.all (fun c => decide (c < s.nextChan)) &&
  (match s.cachedTemplateInvalidated with
   | none => false
   | some c => decide (c < s.nextChan) && !(s.closedChans.contains c)) &&
  decide s.closedChans.Nodup

/-- The world after the first `i` events of a trace. -/
def runUpTo (w : World) (evs : List Event) (i : Nat) : World :=
  run w (evs.take i)

/-- Invariant of a long-poll request under `maxTemplateAge = 0` from a
configured server with template `t0` cached and channel `c0` installed,
while no invalidation has occurred: the slot, the channel and the
request are as at the start, the channel is unclosed, and the observed
handler is before the lock, parked on `(t0, c0)` with no max-age timer,
or cancelled. -/
def parkedRequestInv (t0 : MiningGetBlockTemplateResponse) (c0 : Nat)
    (r : MiningGetBlockTemplateRequest) (w : World) : Prop :=
  w.server.cachedTemplateMaxAge = 0 ∧
  w.server.cachedTemplate = some t0 ∧
  w.server.cachedTemplateInvalidated = some c0 ∧
  w.server.closedChans.contains c0 = false ∧
  w.server.payoutAddr ≠ VoidAddress ∧
  w.req = r ∧
  r.longPollID = t0.longPollID ∧
  (w.handler = .start ∨ w.handler = .ready ∨
    w.handler = .waiting t0 (some c0) none ∨ w.handler = .done .cancelled)

/-- A template with long-poll id `"a"`. -/
def tmplA : MiningGetBlockTemplateResponse := ⟨"a", 0, 0⟩

/-- A template with long-poll id `"b"`. -/
def tmplB : MiningGetBlockTemplateResponse := ⟨"b", 0, 1⟩

/-- A server with payout address 1 and template `tmplA` cached
(max age 0, nothing closed yet). -/
def cachedServerA : ServerState :=
  { newServerState 1 with cachedTemplate := some tmplA }

/-- A request for a fresh template while `tmplA` is cached and the
request carries the *other* id `"b"`: the immediate-return path. -/
def c6World : World :=
  { server := cachedServerA, now := 0, ctxDone := false
    req := ⟨"b"⟩, handler := .start }

/-- A long-poll request: `tmplA` is cached and the request carries its
id `"a"`. -/
def c1World : World :=
  { server := cachedServerA, now := 0, ctxDone := false
    req := ⟨"a"⟩, handler := .start }

/-- A schedule in which the long-poll request parks and its context is
then cancelled; no invalidation occurs. -/
def c1Trace : List Event :=
  [.handlerStep (.ok tmplA), .handlerStep (.ok tmplA), .cancelCtx, .selectCtx]

/-- A long-poll request against a server with `maxTemplateAge = 5`. -/
def c2World : World :=
  { server := { cachedServerA with cachedTemplateMaxAge := 5 }
    now := 0, ctxDone := false, req := ⟨"a"⟩, handler := .ready }

/-- A world whose clock is well past `lastPoolInvalidate`, so the next
pool change is permitted to invalidate. -/
def c3World : World :=
  { server := newServerState 1, now := 1000, ctxDone := false
    req := ⟨""⟩, handler := .start }

/-- Two pool-change callbacks with no time passing between them. -/
def c3Trace : List Event := [.poolChange, .poolChange]

/-- A freshly constructed server with no cached template. -/
def c4World : World :=
  { server := newServerState 1, now := 0, ctxDone := false
    req := ⟨""⟩, handler := .start }

/-- A mixed schedule of invalidations, callbacks and installs. -/
def c4Trace : List Event :=
  [.invalidate, .poolChange, .reorg, .handlerStep (.ok tmplA), .invalidate]

/-- A server configured with the void payout address. -/
def c9VoidWorld : World :=
  { server := newServerState VoidAddress, now := 0, ctxDone := false
    req := ⟨""⟩, handler := .start }

/-- A server configured with a non-void payout address. -/
def c9World : World :=
  { server := newServerState 3, now := 0, ctxDone := false
    req := ⟨""⟩, handler := .start }

/-- A schedule exercising regeneration, invalidation and cancellation. -/
def c9Trace : List Event :=
  [.handlerStep (.ok tmplA), .handlerStep (.ok tmplA), .invalidate,
    .selectInvalidated, .handlerStep (.error ()), .cancelCtx, .selectCtx]

/-- A request arriving at an empty cache slot. -/
def c10World : World :=
  { server := newServerState 1, now := 0, ctxDone := false
    req := ⟨""⟩, handler := .ready }

/-- A V1-era submit environment (tip far below the V2 allow height) in
which every chain call succeeds. -/
def submitEnvV1 : SubmitEnv :=
  { tipHeight := 3, v2AllowHeight := 10
    decodeV1 := fun _ => .ok 5, decodeV2 := fun _ => .ok 6
    addBlocks := fun _ => .ok (), poolTxns := [8], v2PoolTxns := [9]
    broadcastHeaderResult := .ok (), broadcastOutlineResult := .ok () }

/-- A V2-era submit environment (tip at the V2 allow height) in which
every chain call succeeds. -/
def submitEnvV2 : SubmitEnv :=
  { tipHeight := 10, v2AllowHeight := 10
    decodeV1 := fun _ => .ok 5, decodeV2 := fun _ => .ok 6
    addBlocks := fun _ => .ok (), poolTxns := [8], v2PoolTxns := [9]
    broadcastHeaderResult := .ok (), broadcastOutlineResult := .ok () }

example : hexDecodeString "00ff" = some [0, 255] := by decide

example : hexDecodeString "zz" = none := by decide

example : hexDecodeString "abc" = none := by decide

example : shouldRegenerateTemplate 0 (newServerState 7) = true := by decide

example :
    shouldRegenerateTemplate 10
      { newServerState 7 with
        cachedTemplate := some ⟨"a", 0, 0⟩ } = false := by decide

example :
    shouldRegenerateTemplate 10
      { withMaxTemplateAge 5 (newServerState 7) with
        cachedTemplate := some ⟨"a", 0, 0⟩ } = true := by decide

/-! ## C5: the regeneration predicate -/

/-- C5, counterexample: the claimed characterization of
`shouldRegenerateTemplate` says regeneration requires `maxTemplateAge >
0` when a template is cached, but the code only tests
`cachedTemplateMaxAge == 0`; with a (configurable) negative max age and
a cached template the code regenerates while the claimed condition is
false. -/
theorem shouldRegenerateTemplate_claim_fails_on_negative_age :
    shouldRegenerateTemplate 0
        { newServerState 1 with
          cachedTemplateMaxAge := -1
          cachedTemplate := some tmplA } = true ∧
      claimedRegenerateCondition 0
        { newServerState 1 with
          cachedTemplateMaxAge := -1
          cachedTemplate := some tmplA } = false := by
  decide

/-- C5, amended: `shouldRegenerateTemplate` returns true iff the slot is
nil, or `maxTemplateAge ≠ 0` (the code's test; `> 0` only under a
nonnegative configuration) and `now` minus the cached template's
embedded timestamp is at least `maxTemplateAge`; in particular with
`maxTemplateAge = 0` a cached template never triggers regeneration. -/
theorem shouldRegenerateTemplate_spec (now : Int) (s : ServerState) :
    (shouldRegenerateTemplate now s = true ↔
      (s.cachedTemplate = none ∨
        (s.cachedTemplateMaxAge ≠ 0 ∧
          ∃ t, s.cachedTemplate = some t ∧
            s.cachedTemplateMaxAge ≤ now - t.timestamp))) ∧
    (s.cachedTemplateMaxAge = 0 →
      ∀ t, s.cachedTemplate = some t →
        shouldRegenerateTemplate now s = false) ∧
    (0 ≤ s.cachedTemplateMaxAge →
      (shouldRegenerateTemplate now s = claimedRegenerateCondition now s)) := by
  unfold shouldRegenerateTemplate claimedRegenerateCondition
  rcases h : s.cachedTemplate with _ | t
  · simp
  · constructor
    · by_cases h0 : s.cachedTemplateMaxAge = 0 <;>
        simp [h0, And.comm]
    · constructor
      · intro h0 t' ht'
        simp [h0]
      · intro hnn
        by_cases h0 : s.cachedTemplateMaxAge = 0 <;>
          simp [h0, ge_iff_le]
        · omega

/-- C5 witness: with max age 0 and a cached template the predicate is
false, instantiating the amended theorem at `now = 99`. -/
theorem shouldRegenerateTemplate_spec_witness :
    shouldRegenerateTemplate 99 cachedServerA = false :=
  (shouldRegenerateTemplate_spec 99 cachedServerA).2.1 rfl tmplA rfl

/-! ## C6: the immediate-return path encodes the shared slot -/

/-- C6: after the locked capture of `tmplA` the handler is at the
encode with `tmplA` captured; if `invalidateCachedTemplate` runs before
the encode executes, `jc.Encode(s.cachedTemplate)` — which re-reads the
shared slot outside the lock at line 140 of `server.go` instead of
encoding the captured local `template` — writes the nil slot (JSON
`null`), not the captured template. -/
theorem getblocktemplate_encode_reads_shared_slot :
    (run c6World
        [.handlerStep (.ok tmplA), .handlerStep (.ok tmplA)]).handler
      = .encode tmplA ∧
    (run c6World
        [.handlerStep (.ok tmplA), .handlerStep (.ok tmplA),
          .invalidate, .handlerStep (.ok tmplA)]).handler
      = .done (.encoded none) := by
  decide

/-! ## Frame lemmas for the event semantics -/

/-- A handler step leaves the clock, the context flag and the request
unchanged, and touches the server only by installing a template. -/
theorem handlerStepFn_frame (w : World)
    (gen : Except Unit MiningGetBlockTemplateResponse) :
    (handlerStepFn w gen).now = w.now ∧
    (handlerStepFn w gen).ctxDone = w.ctxDone ∧
    (handlerStepFn w gen).req = w.req ∧
    ((handlerStepFn w gen).server = w.server ∨
      ∃ t, (handlerStepFn w gen).server
        = { w.server with cachedTemplate := some t }) := by
  obtain ⟨s, now, ctx, req, ph⟩ := w
  cases ph <;> cases gen <;> simp only [handlerStepFn]
  all_goals try split_ifs
  all_goals
    first
      | simp
      | (rcases h : s.cachedTemplate with _ | t <;> simp [h])

/-- The configuration fields and the request never change, the clock
never decreases, and the server changes only by installing a template,
by `invalidateCachedTemplate`, or by a stamped invalidation. -/
theorem step_frame (w : World) (e : Event) :
    (step w e).req = w.req ∧
    w.now ≤ (step w e).now ∧
    ((step w e).server = w.server ∨
      (∃ t, (step w e).server = { w.server with cachedTemplate := some t }) ∨
      (step w e).server = invalidateCachedTemplate w.server ∨
      (step w e).server
        = invalidateCachedTemplate
            { w.server with lastPoolInvalidate := w.now }) := by
  cases e with
  | handlerStep gen =>
    obtain ⟨h1, h2, h3, h4⟩ := handlerStepFn_frame w gen
    refine ⟨h3, le_of_eq h1.symm, ?_⟩
    rcases h4 with h | ⟨t, h⟩
    · exact Or.inl h
    · exact Or.inr (Or.inl ⟨t, h⟩)
  | selectInvalidated =>
    obtain ⟨s, now, ctx, req, ph⟩ := w
    cases ph
    case waiting t oc dl =>
      cases oc <;> simp [step] <;> split_ifs <;> simp
    all_goals simp [step]
  | selectMaxAge =>
    obtain ⟨s, now, ctx, req, ph⟩ := w
    cases ph
    case waiting t oc dl =>
      cases dl <;> simp [step] <;> split_ifs <;> simp
    all_goals simp [step]
  | selectCtx =>
    obtain ⟨s, now, ctx, req, ph⟩ := w
    cases ph <;> simp [step] <;> split_ifs <;> simp
  | invalidate => simp [step]
  | reorg => simp [step]
  | poolChange =>
    by_cases h :
        w.now - w.server.lastPoolInvalidate < w.server.poolInvalidationTimeout <;>
      simp [step, shouldPoolChangeInvalidateTemplate, h]
  | otherGet gen =>
    simp only [step, otherGetFn]
    split_ifs <;> cases gen <;> simp
  | cancelCtx => simp [step]
  | advanceTime d => simp [step]

/-- `invalidateCachedTemplate` only touches the slot and the channel
bookkeeping. -/
theorem invalidateCachedTemplate_frame (s : ServerState) :
    (invalidateCachedTemplate s).payoutAddr = s.payoutAddr ∧
    (invalidateCachedTemplate s).cachedTemplateMaxAge
      = s.cachedTemplateMaxAge ∧
    (invalidateCachedTemplate s).poolInvalidationTimeout
      = s.poolInvalidationTimeout ∧
    (invalidateCachedTemplate s).lastPoolInvalidate
      = s.lastPoolInvalidate := by
  simp [invalidateCachedTemplate]

/-- The payout address is constant along a step. -/
theorem step_payoutAddr (w : World) (e : Event) :
    (step w e).server.payoutAddr = w.server.payoutAddr := by
  rcases (step_frame w e).2.2 with h | ⟨t, h⟩ | h | h <;>
    rw [h] <;> simp [invalidateCachedTemplate]

/-! ## C9: void payout address -/

/-- The thread-local continuation after the locked section is never a
finished handler. -/
theorem afterLockedSection_ne_done (req : MiningGetBlockTemplateRequest)
    (t : MiningGetBlockTemplateResponse) (ic : Option Nat) (ma : Int)
    (r : HandlerResult) :
    afterLockedSection req t ic ma ≠ .done r := by
  unfold afterLockedSection
  split_ifs <;> simp

/-- A step never produces the 503 result unless the handler is at its
start with the void payout address configured. -/
theorem step_no503 (w : World) (e : Event)
    (hpay : w.server.payoutAddr ≠ VoidAddress)
    (hph : w.handler ≠ .done .error503) :
    (step w e).handler ≠ .done .error503 := by
  obtain ⟨s, now, ctx, req, ph⟩ := w
  cases e with
  | handlerStep gen =>
    cases ph with
    | start =>
      simp only [step, handlerStepFn]
      split_ifs with h
      · exact absurd h hpay
      · simp
    | ready =>
      simp only [step, handlerStepFn]
      split_ifs with h
      · cases gen with
        | error e => simp
        | ok t => exact afterLockedSection_ne_done _ _ _ _ _
      · rcases hc : s.cachedTemplate with _ | t <;> simp only [hc]
        · simp
        · exact afterLockedSection_ne_done _ _ _ _ _
    | encode t => simp [step, handlerStepFn]
    | waiting t oc dl => simpa [step, handlerStepFn] using hph
    | done r => simpa [step, handlerStepFn] using hph
  | selectInvalidated =>
    cases ph
    case waiting t oc dl =>
      cases oc <;> simp_all [step] <;> split_ifs <;> simp_all
    all_goals simp_all [step]
  | selectMaxAge =>
    cases ph
    case waiting t oc dl =>
      cases dl <;> simp_all [step] <;> split_ifs <;> simp_all
    all_goals simp_all [step]
  | selectCtx =>
    cases ph <;> simp_all [step] <;> split_ifs <;> simp_all
  | invalidate => simp_all [step]
  | reorg => simp_all [step]
  | poolChange => simp_all [step]
  | otherGet gen =>
    simp only [step, otherGetFn]
    split_ifs <;> cases gen <;> simp_all
  | cancelCtx => simp_all [step]
  | advanceTime d => simp_all [step]

/-- No run from a non-void configuration ever reaches the 503 result. -/
theorem run_no503 (w : World) (evs : List Event)
    (hpay : w.server.payoutAddr ≠ VoidAddress)
    (hph : w.handler ≠ .done .error503) :
    (run w evs).handler ≠ .done .error503 := by
  induction evs generalizing w with
  | nil => exact hph
  | cons e es ih =>
    exact ih (step w e) (by rw [step_payoutAddr]; exact hpay)
      (step_no503 w e hpay hph)

/-- C9: with the void payout address configured, the first handler step
returns 503 and leaves the server (hence the cache) untouched; with any
other payout address, no schedule ever produces the 503 result. -/
theorem getblocktemplate_void_payout_503 (w : World) (evs : List Event)
    (hph : w.handler = .start) :
    (w.server.payoutAddr = VoidAddress →
      ∀ gen, handlerStepFn w gen = { w with handler := .done .error503 }) ∧
    (w.server.payoutAddr ≠ VoidAddress →
      (run w evs).handler ≠ .done .error503) := by
  constructor
  · intro hv gen
    obtain ⟨s, now, ctx, req, ph⟩ := w
    subst hph
    simp only [] at hv
    simp [handlerStepFn, hv]
  · intro hnv
    exact run_no503 w evs hnv (by rw [hph]; simp)

/-- C9 witness: the void configuration 503s in one step with the server
untouched, and a non-void configuration never 503s along `c9Trace`. -/
theorem getblocktemplate_void_payout_503_witness :
    handlerStepFn c9VoidWorld (.ok tmplA)
      = { c9VoidWorld with handler := .done .error503 } ∧
    (run c9World c9Trace).handler ≠ .done .error503 :=
  ⟨(getblocktemplate_void_payout_503 c9VoidWorld [] rfl).1 rfl (.ok tmplA),
    (getblocktemplate_void_payout_503 c9World c9Trace rfl).2 (by decide)⟩

/-! ## C10: builder failure during regeneration -/

/-- C10: if the locked section regenerates and `generateBlockTemplate`
fails, the handler finishes with the propagated 500 error and the whole
server state — slot, invalidation channel, closed channels, pool
clock — is exactly as before the step. -/
theorem getblocktemplate_builder_failure_leaves_cache_unchanged
    (w : World)
    (hph : w.handler = .ready)
    (hregen : shouldRegenerateTemplate w.now w.server = true) :
    (step w (.handlerStep (.error ()))).server = w.server ∧
    (step w (.handlerStep (.error ()))).handler = .done .error500 ∧
    (step w (.handlerStep (.error ()))).server.cachedTemplate
      = w.server.cachedTemplate ∧
    (step w (.handlerStep (.error ()))).server.cachedTemplateInvalidated
      = w.server.cachedTemplateInvalidated ∧
    (step w (.handlerStep (.error ()))).server.closedChans
      = w.server.closedChans ∧
    (step w (.handlerStep (.error ()))).server.lastPoolInvalidate
      = w.server.lastPoolInvalidate := by
  obtain ⟨s, now, ctx, req, ph⟩ := w
  subst hph
  simp [step, handlerStepFn, hregen]

/-! ## C7 and C8: the submit pipeline -/

/-- C7: a submitted block is decoded with the V1 decoder iff the tip
height is strictly below `HardforkV2.AllowHeight` and with the V2
decoder otherwise; once `AddBlocks` accepts the decoded block the
server broadcasts the block header in the V1 case and the V2 block
outline built from the block and the current V1/V2 pool transactions in
the V2 case. -/
theorem submitblock_version_rule (env : SubmitEnv) (p : String)
    (rest : List String) (raw : RawBytes) (b : Block)
    (hhex : hexDecodeString p = some raw)
    (hdec : (if env.v2AllowHeight ≤ env.tipHeight
        then env.decodeV2 raw else env.decodeV1 raw) = .ok b)
    (hadd : env.addBlocks b = .ok ()) :
    ((miningSubmitBlockTemplateHandler env ⟨p :: rest⟩).usedV2Decoder
        = some false ↔ env.tipHeight < env.v2AllowHeight) ∧
    ((miningSubmitBlockTemplateHandler env ⟨p :: rest⟩).usedV2Decoder
        = some true ↔ env.v2AllowHeight ≤ env.tipHeight) ∧
    (miningSubmitBlockTemplateHandler env ⟨p :: rest⟩).addBlocksCalledWith
        = some b ∧
    (miningSubmitBlockTemplateHandler env ⟨p :: rest⟩).broadcast
        = some (if env.tipHeight < env.v2AllowHeight
            then .header b
            else .v2Outline b env.poolTxns env.v2PoolTxns) := by
  by_cases h : env.v2AllowHeight ≤ env.tipHeight
  · rw [if_pos h] at hdec
    rcases hbr : env.broadcastOutlineResult with e | u <;>
      simp [miningSubmitBlockTemplateHandler, hhex, hdec, hadd, hbr, h,
        ge_iff_le, not_lt.mpr h]
  · rw [if_neg h] at hdec
    rcases hbr : env.broadcastHeaderResult with e | u <;>
      simp [miningSubmitBlockTemplateHandler, hhex, hdec, hadd, hbr, h,
        ge_iff_le, not_le.mp h]

/-- C7 witness: with the tip below the allow height the decoded V1
block's header is broadcast; at the allow height the V2 outline with
the two pool snapshots is broadcast. -/
theorem submitblock_version_rule_witness :
    (miningSubmitBlockTemplateHandler submitEnvV1 ⟨["00"]⟩).broadcast
        = some (.header 5) ∧
    (miningSubmitBlockTemplateHandler submitEnvV2 ⟨["00"]⟩).broadcast
        = some (.v2Outline 6 [8] [9]) := by
  constructor
  · have h :=
      (submitblock_version_rule submitEnvV1 "00" [] [0] 5 (by decide)
        rfl rfl).2.2.2
    simpa [submitEnvV1] using h
  · have h :=
      (submitblock_version_rule submitEnvV2 "00" [] [0] 6 (by decide)
        rfl rfl).2.2.2
    simpa [submitEnvV2] using h

/-- C8, counterexample: a submit request whose `params[0]` is malformed
hex is rejected through `jc.Check`, which responds with HTTP 500, not
the claimed 400 (`AddBlocks` is indeed not called). -/
theorem submitblock_malformed_hex_not_400 :
    (miningSubmitBlockTemplateHandler submitEnvV1 ⟨["zz"]⟩).status = 500 ∧
    (miningSubmitBlockTemplateHandler submitEnvV1 ⟨["zz"]⟩).status ≠ 400 ∧
    (miningSubmitBlockTemplateHandler submitEnvV1 ⟨["zz"]⟩).addBlocksCalledWith
      = none := by
  refine ⟨rfl, ?_, rfl⟩
  decide

/-- C8, amended: an empty `params` array is rejected with 400; malformed
hex in `params[0]` and bytes failing the V1/V2 block decoder are
rejected with 500 (via jape's `Check`); in all three cases `AddBlocks`
is not called. -/
theorem submitblock_reject_rule (env : SubmitEnv)
    (req : MiningSubmitBlockRequest) :
    (req.params = [] →
      (miningSubmitBlockTemplateHandler env req).status = 400 ∧
      (miningSubmitBlockTemplateHandler env req).addBlocksCalledWith = none) ∧
    (∀ p rest, req.params = p :: rest → hexDecodeString p = none →
      (miningSubmitBlockTemplateHandler env req).status = 500 ∧
      (miningSubmitBlockTemplateHandler env req).addBlocksCalledWith = none) ∧
    (∀ p rest raw, req.params = p :: rest → hexDecodeString p = some raw →
      (if env.v2AllowHeight ≤ env.tipHeight
          then env.decodeV2 raw else env.decodeV1 raw) = .error () →
      (miningSubmitBlockTemplateHandler env req).status = 500 ∧
      (miningSubmitBlockTemplateHandler env req).addBlocksCalledWith = none) := by
  obtain ⟨ps⟩ := req
  refine ⟨?_, ?_, ?_⟩
  · rintro rfl
    exact ⟨rfl, rfl⟩
  · rintro p rest rfl hhex
    simp [miningSubmitBlockTemplateHandler, hhex]
  · rintro p rest raw rfl hhex hdec
    by_cases h : env.v2AllowHeight ≤ env.tipHeight
    · rw [if_pos h] at hdec
      simp [miningSubmitBlockTemplateHandler, hhex, hdec, ge_iff_le, h]
    · rw [if_neg h] at hdec
      simp [miningSubmitBlockTemplateHandler, hhex, hdec, ge_iff_le, h]

/-- C8 witness: the empty-params rejection, instantiated. -/
theorem submitblock_reject_rule_witness :
    (miningSubmitBlockTemplateHandler submitEnvV2 ⟨[]⟩).status = 400 ∧
    (miningSubmitBlockTemplateHandler submitEnvV2 ⟨[]⟩).addBlocksCalledWith
      = none :=
  (submitblock_reject_rule submitEnvV2 ⟨[]⟩).1 rfl

/-- C10 witness: at an empty slot the builder runs, and on its failure
the cache is unchanged and the request fails with 500. -/
theorem getblocktemplate_builder_failure_witness :
    (step c10World (.handlerStep (.error ()))).server = c10World.server ∧
    (step c10World (.handlerStep (.error ()))).handler = .done .error500 ∧
    (step c10World (.handlerStep (.error ()))).server.cachedTemplate
      = c10World.server.cachedTemplate ∧
    (step c10World (.handlerStep (.error ()))).server.cachedTemplateInvalidated
      = c10World.server.cachedTemplateInvalidated ∧
    (step c10World (.handlerStep (.error ()))).server.closedChans
      = c10World.server.closedChans ∧
    (step c10World (.handlerStep (.error ()))).server.lastPoolInvalidate
      = c10World.server.lastPoolInvalidate :=
  getblocktemplate_builder_failure_leaves_cache_unchanged c10World rfl
    (by decide)

/-! ## C1: with `maxTemplateAge = 0`, matching long-polls only return
after an invalidation -/

/-- The invariant of a parked matching request is preserved by every
event that does not invoke `invalidateCachedTemplate`. -/
theorem parkedRequestInv_step (t0 : MiningGetBlockTemplateResponse)
    (c0 : Nat) (r : MiningGetBlockTemplateRequest) (w : World) (e : Event)
    (hinv : parkedRequestInv t0 c0 r w)
    (hni : stepInvalidates w e = false) :
    parkedRequestInv t0 c0 r (step w e) := by
  obtain ⟨hage, hslot, hchan, hopen, hpay, hreq, hmatch, hph⟩ := hinv
  have hreg : shouldRegenerateTemplate w.now w.server = false := by
    simp [shouldRegenerateTemplate, hslot, hage]
  cases e with
  | handlerStep gen =>
    rcases hph with h | h | h | h
    · simp only [step, handlerStepFn, h]
      rw [if_neg hpay]
      exact ⟨hage, hslot, hchan, hopen, hpay, hreq, hmatch,
        Or.inr (Or.inl rfl)⟩
    · simp only [step, handlerStepFn, h, hreg, Bool.false_eq_true,
        if_false, hslot]
      simp only [afterLockedSection, hreq, hmatch, ne_eq,
        not_true_eq_false, if_false, hage, hchan]
      exact ⟨hage, hslot, hchan, hopen, hpay, rfl, hmatch, by simp⟩
    · simp only [step, handlerStepFn, h]
      exact ⟨hage, hslot, hchan, hopen, hpay, hreq, hmatch,
        Or.inr (Or.inr (Or.inl h))⟩
    · simp only [step, handlerStepFn, h]
      exact ⟨hage, hslot, hchan, hopen, hpay, hreq, hmatch,
        Or.inr (Or.inr (Or.inr h))⟩
  | selectInvalidated =>
    rcases hph with h | h | h | h
    · simp only [step, h]
      exact ⟨hage, hslot, hchan, hopen, hpay, hreq, hmatch, Or.inl h⟩
    · simp only [step, h]
      exact ⟨hage, hslot, hchan, hopen, hpay, hreq, hmatch,
        Or.inr (Or.inl h)⟩
    · simp only [step, h, hopen, Bool.false_eq_true, if_false]
      exact ⟨hage, hslot, hchan, hopen, hpay, hreq, hmatch,
        Or.inr (Or.inr (Or.inl h))⟩
    · simp only [step, h]
      exact ⟨hage, hslot, hchan, hopen, hpay, hreq, hmatch,
        Or.inr (Or.inr (Or.inr h))⟩
  | selectMaxAge =>
    rcases hph with h | h | h | h <;> simp only [step, h] <;>
      exact ⟨hage, hslot, hchan, hopen, hpay, hreq, hmatch, by simp [h]⟩
  | selectCtx =>
    rcases hph with h | h | h | h <;> simp only [step, h]
    · exact ⟨hage, hslot, hchan, hopen, hpay, hreq, hmatch, by simp [h]⟩
    · exact ⟨hage, hslot, hchan, hopen, hpay, hreq, hmatch, by simp [h]⟩
    · split_ifs
      · exact ⟨hage, hslot, hchan, hopen, hpay, hreq, hmatch,
          Or.inr (Or.inr (Or.inr rfl))⟩
      · exact ⟨hage, hslot, hchan, hopen, hpay, hreq, hmatch,
          Or.inr (Or.inr (Or.inl h))⟩
    · exact ⟨hage, hslot, hchan, hopen, hpay, hreq, hmatch, by simp [h]⟩
  | invalidate => simp [stepInvalidates] at hni
  | reorg => simp [stepInvalidates] at hni
  | poolChange =>
    by_cases hc :
        w.now - w.server.lastPoolInvalidate < w.server.poolInvalidationTimeout
    · simp only [step, shouldPoolChangeInvalidateTemplate, if_pos hc]
      exact ⟨hage, hslot, hchan, hopen, hpay, hreq, hmatch, hph⟩
    · simp [stepInvalidates, shouldPoolChangeInvalidateTemplate, hc] at hni
  | otherGet gen =>
    simp only [step, otherGetFn, hreg, Bool.false_eq_true, if_false]
    exact ⟨hage, hslot, hchan, hopen, hpay, hreq, hmatch, hph⟩
  | cancelCtx =>
    exact ⟨hage, hslot, hchan, hopen, hpay, hreq, hmatch, hph⟩
  | advanceTime d =>
    exact ⟨hage, hslot, hchan, hopen, hpay, hreq, hmatch, hph⟩

/-- The invariant is preserved along every invalidation-free trace. -/
theorem parkedRequestInv_run (t0 : MiningGetBlockTemplateResponse)
    (c0 : Nat) (r : MiningGetBlockTemplateRequest) (w : World)
    (evs : List Event)
    (hinv : parkedRequestInv t0 c0 r w)
    (hni : traceInvalidates w evs = false) :
    parkedRequestInv t0 c0 r (run w evs) := by
  induction evs generalizing w with
  | nil => exact hinv
  | cons e es ih =>
    simp only [traceInvalidates, Bool.or_eq_false_iff] at hni
    exact ih (step w e) (parkedRequestInv_step t0 c0 r w e hinv hni.1) hni.2

/-- C1: with `maxTemplateAge = 0`, a request whose `longpollid` matches
the cached template's `LongPollID` returns a template only after
`invalidateCachedTemplate` has been invoked since that template was
installed: along any schedule in which no invalidation is invoked, the
handler never finishes with an encoded body, and if it finishes at all
it is through the cancellation of the request context, which returns no
template. -/
theorem getblocktemplate_maxage_zero_longpoll
    (t0 : MiningGetBlockTemplateResponse) (c0 : Nat)
    (r : MiningGetBlockTemplateRequest) (w : World) (evs : List Event)
    (hage : w.server.cachedTemplateMaxAge = 0)
    (hslot : w.server.cachedTemplate = some t0)
    (hchan : w.server.cachedTemplateInvalidated = some c0)
    (hopen : w.server.closedChans.contains c0 = false)
    (hpay : w.server.payoutAddr ≠ VoidAddress)
    (hreq : w.req = r)
    (hmatch : r.longPollID = t0.longPollID)
    (hph : w.handler = .start)
    (hni : traceInvalidates w evs = false) :
    (∀ res, (run w evs).handler = .done res → res = .cancelled) ∧
    ∀ b, (run w evs).handler ≠ .done (.encoded b) := by
  have h := parkedRequestInv_run t0 c0 r w evs
    ⟨hage, hslot, hchan, hopen, hpay, hreq, hmatch, Or.inl hph⟩ hni
  obtain ⟨-, -, -, -, -, -, -, hph'⟩ := h
  constructor
  · intro res hres
    rcases hph' with h | h | h | h <;> rw [h] at hres
    · cases hres
    · cases hres
    · cases hres
    · cases hres
      rfl
  · intro b hb
    rcases hph' with h | h | h | h <;> rw [h] at hb <;> cases hb

/-- C1 witness: a parked matching request whose context is cancelled
along an invalidation-free schedule finishes cancelled, with no encoded
body. -/
theorem getblocktemplate_maxage_zero_longpoll_witness :
    (run c1World c1Trace).handler = .done .cancelled ∧
    (run c1World c1Trace).handler ≠ .done (.encoded none) :=
  ⟨by decide,
    (getblocktemplate_maxage_zero_longpoll tmplA 0 ⟨"a"⟩ c1World c1Trace
      rfl rfl rfl rfl (by decide) rfl rfl rfl (by decide)).2 none⟩

/-! ## C2: with `maxTemplateAge = D > 0`, a matching long-poll is
released by the max-age timer even with no pool or reorg event -/

/-- C2: with `maxTemplateAge = D > 0`, a request matching the cached
template parks with the max-age timer armed at the template's embedded
timestamp plus `D`; once the clock passes that deadline the timer
branch of the select is enabled, the handler loops, the locked section
regenerates (the cached template is now at least `D` old), and the
handler returns the fresh template, whose long-poll id differs from the
request's — all without any pool-change, reorg or invalidation event in
the schedule. -/
theorem getblocktemplate_maxage_timer
    (w : World) (t0 t1 : MiningGetBlockTemplateResponse) (c0 : Nat)
    (d : Nat) (g0 g2 : Except Unit MiningGetBlockTemplateResponse)
    (hD : 0 < w.server.cachedTemplateMaxAge)
    (hslot : w.server.cachedTemplate = some t0)
    (hchan : w.server.cachedTemplateInvalidated = some c0)
    (hmatch : w.req.longPollID = t0.longPollID)
    (hph : w.handler = .ready)
    (hfresh : w.now - t0.timestamp < w.server.cachedTemplateMaxAge)
    (hd : t0.timestamp + w.server.cachedTemplateMaxAge ≤ w.now + d)
    (hnew : t1.longPollID ≠ w.req.longPollID) :
    (step w (.handlerStep g0)).handler
      = .waiting t0 (some c0)
          (some (t0.timestamp + w.server.cachedTemplateMaxAge)) ∧
    (run w [.handlerStep g0, .advanceTime d, .selectMaxAge,
        .handlerStep (.ok t1), .handlerStep g2]).handler
      = .done (.encoded (some t1)) ∧
    shouldRegenerateTemplate (w.now + d) w.server = true ∧
    t1.longPollID ≠ w.req.longPollID := by
  have hne : w.server.cachedTemplateMaxAge ≠ 0 := hD.ne'
  have hreg1 : shouldRegenerateTemplate w.now w.server = false := by
    simp [shouldRegenerateTemplate, hslot, hne, not_le.mpr hfresh]
  have hreg2 : shouldRegenerateTemplate (w.now + d) w.server = true := by
    simp [shouldRegenerateTemplate, hslot, hne, ge_iff_le]
    omega
  have h1 : step w (.handlerStep g0)
      = { w with
          handler := (HandlerPhase.waiting t0 (some c0)
            (some (t0.timestamp + w.server.cachedTemplateMaxAge))) } := by
    simp only [step, handlerStepFn, hph, hreg1, Bool.false_eq_true,
      if_false, hslot, afterLockedSection, hmatch, ne_eq,
      not_true_eq_false, hchan, if_pos hD]
  refine ⟨by rw [h1], ?_, hreg2, hnew⟩
  have h2 : step ({ w with
        handler := (HandlerPhase.waiting t0 (some c0)
          (some (t0.timestamp + w.server.cachedTemplateMaxAge))) })
        (Event.advanceTime d)
      = { w with
          handler := (HandlerPhase.waiting t0 (some c0)
            (some (t0.timestamp + w.server.cachedTemplateMaxAge)))
          now := w.now + d } := rfl
  have h3 : step ({ w with
        handler := (HandlerPhase.waiting t0 (some c0)
          (some (t0.timestamp + w.server.cachedTemplateMaxAge)))
        now := w.now + d }) Event.selectMaxAge
      = { w with handler := HandlerPhase.ready, now := w.now + d } := by
    simp only [step]
    rw [if_pos hd]
  have h4 : step ({ w with handler := HandlerPhase.ready, now := w.now + d })
        (Event.handlerStep (.ok t1))
      = { w with
          server := { w.server with cachedTemplate := some t1 }
          handler := HandlerPhase.encode t1
          now := w.now + d } := by
    simp only [step, handlerStepFn, hreg2, if_true, afterLockedSection,
      hchan]
    rw [if_pos hnew]
  have h5 : step ({ w with
        server := { w.server with cachedTemplate := some t1 }
        handler := HandlerPhase.encode t1
        now := w.now + d }) (Event.handlerStep g2)
      = { w with
          server := { w.server with cachedTemplate := some t1 }
          handler := HandlerPhase.done (.encoded (some t1))
          now := w.now + d } := rfl
  simp only [run]
  rw [h1, h2, h3, h4, h5]

/-- C2 witness: with `maxTemplateAge = 5` and the cached template's
timestamp 0, the parked request's timer is armed at 5, and advancing
the clock by 10 releases it with a freshly regenerated template. -/
theorem getblocktemplate_maxage_timer_witness :
    (step c2World (.handlerStep (.ok tmplA))).handler
      = .waiting tmplA (some 0) (some 5) ∧
    (run c2World [.handlerStep (.ok tmplA), .advanceTime 10, .selectMaxAge,
        .handlerStep (.ok tmplB), .handlerStep (.ok tmplB)]).handler
      = .done (.encoded (some tmplB)) ∧
    shouldRegenerateTemplate 10 c2World.server = true ∧
    tmplB.longPollID ≠ c2World.req.longPollID := by
  have h := getblocktemplate_maxage_timer c2World tmplA tmplB 0 10
    (.ok tmplA) (.ok tmplB) (by decide) rfl rfl rfl rfl (by decide)
    (by decide) (by decide)
  simpa using h

/-! ## C3: pool-change debounce; reorgs never debounced -/

/-- Running an appended trace is running the pieces in order. -/
theorem run_append (w : World) (a b : List Event) :
    run w (a ++ b) = run (run w a) b := by
  induction a generalizing w with
  | nil => rfl
  | cons e es ih => simp [run, ih]

/-- One more event of the prefix is one step. -/
theorem runUpTo_succ (w : World) (evs : List Event) (i : Nat) (e : Event)
    (h : evs[i]? = some e) :
    runUpTo w evs (i + 1) = step (runUpTo w evs i) e := by
  unfold runUpTo
  rw [List.take_succ, h, run_append]
  rfl

/-- Splitting a prefix at `i`. -/
theorem runUpTo_add (w : World) (evs : List Event) (i k : Nat) :
    runUpTo w evs (i + k) = run (runUpTo w evs i) ((evs.drop i).take k) := by
  unfold runUpTo
  rw [List.take_add, run_append]

/-- A pool-change event invokes `invalidateCachedTemplate` iff the full
debounce window has elapsed since `lastPoolInvalidate`. -/
theorem poolChange_invalidates_iff (w : World) :
    stepInvalidates w .poolChange = true ↔
      w.server.poolInvalidationTimeout
        ≤ w.now - w.server.lastPoolInvalidate := by
  by_cases hc :
      w.now - w.server.lastPoolInvalidate < w.server.poolInvalidationTimeout <;>
    simp [stepInvalidates, shouldPoolChangeInvalidateTemplate, hc] <;>
    omega

/-- A permitted pool-change invalidation stamps the clock with the
current time. -/
theorem poolChange_stamp (w : World)
    (hinv : stepInvalidates w .poolChange = true) :
    (step w .poolChange).server.lastPoolInvalidate = w.now := by
  by_cases hc :
      w.now - w.server.lastPoolInvalidate < w.server.poolInvalidationTimeout
  · simp [stepInvalidates, shouldPoolChangeInvalidateTemplate, hc] at hinv
  · simp [step, shouldPoolChangeInvalidateTemplate, hc,
      invalidateCachedTemplate]

/-- One step preserves `lastPoolInvalidate ≤ now`, never decreases
either quantity, and leaves the debounce window unchanged. -/
theorem step_clock (w : World) (e : Event)
    (h : w.server.lastPoolInvalidate ≤ w.now) :
    (step w e).server.lastPoolInvalidate ≤ (step w e).now ∧
    w.server.lastPoolInvalidate ≤ (step w e).server.lastPoolInvalidate ∧
    w.now ≤ (step w e).now ∧
    (step w e).server.poolInvalidationTimeout
      = w.server.poolInvalidationTimeout := by
  obtain ⟨-, hnow, hcases⟩ := step_frame w e
  rcases hcases with hs | ⟨t, hs⟩ | hs | hs <;> rw [hs] <;>
    simp [invalidateCachedTemplate] <;> omega

/-- The clock facts of `step_clock`, along a whole trace. -/
theorem run_clock (w : World) (evs : List Event)
    (h : w.server.lastPoolInvalidate ≤ w.now) :
    (run w evs).server.lastPoolInvalidate ≤ (run w evs).now ∧
    w.server.lastPoolInvalidate
      ≤ (run w evs).server.lastPoolInvalidate ∧
    w.now ≤ (run w evs).now ∧
    (run w evs).server.poolInvalidationTimeout
      = w.server.poolInvalidationTimeout := by
  induction evs generalizing w with
  | nil => exact ⟨h, le_refl _, le_refl _, rfl⟩
  | cons e es ih =>
    obtain ⟨h1, h2, h3, h4⟩ := step_clock w e h
    obtain ⟨h5, h6, h7, h8⟩ := ih (step w e) h1
    simp only [run]
    exact ⟨h5, le_trans h2 h6, le_trans h3 h7, by rw [h8, h4]⟩

/-- C3: two pool-change callback invocations whose observation times
are less than `poolInvalidationTimeout` apart cause at most one call of
`invalidateCachedTemplate` (if the earlier one was permitted, the later
is dropped without stamping the clock), while a reorg callback always
applies `invalidateCachedTemplate` to the server unconditionally. -/
theorem poolchange_debounced_reorg_not (w : World) (evs : List Event)
    (i j : Nat)
    (hclock : w.server.lastPoolInvalidate ≤ w.now)
    (hij : i < j)
    (hi : evs[i]? = some .poolChange)
    (hj : evs[j]? = some .poolChange)
    (hwin : (runUpTo w evs j).now - (runUpTo w evs i).now
        < w.server.poolInvalidationTimeout) :
    (stepInvalidates (runUpTo w evs i) .poolChange = true →
      stepInvalidates (runUpTo w evs j) .poolChange = false) ∧
    (∀ k, evs[k]? = some .reorg →
      (runUpTo w evs (k + 1)).server
        = invalidateCachedTemplate (runUpTo w evs k).server ∧
      stepInvalidates (runUpTo w evs k) .reorg = true) := by
  constructor
  · intro hInvI
    -- clock state at the three observation points
    have hci := run_clock w (evs.take i) hclock
    have hstamp : (runUpTo w evs (i + 1)).server.lastPoolInvalidate
        = (runUpTo w evs i).now := by
      rw [runUpTo_succ w evs i .poolChange hi]
      exact poolChange_stamp _ hInvI
    have hci1 : (runUpTo w evs (i + 1)).server.lastPoolInvalidate
        ≤ (runUpTo w evs (i + 1)).now := by
      have := step_clock (runUpTo w evs i) .poolChange hci.1
      rw [runUpTo_succ w evs i .poolChange hi]
      exact ((step_clock (runUpTo w evs i) .poolChange hci.1).1)
    have hdecomp : runUpTo w evs j
        = run (runUpTo w evs (i + 1)) ((evs.drop (i + 1)).take (j - (i + 1))) := by
      rw [← runUpTo_add w evs (i + 1) (j - (i + 1))]
      congr 1
      omega
    have hcj := run_clock (runUpTo w evs (i + 1))
      ((evs.drop (i + 1)).take (j - (i + 1))) hci1
    rw [← hdecomp] at hcj
    -- the timeout at j equals the initial timeout
    have htmoi : (runUpTo w evs (i + 1)).server.poolInvalidationTimeout
        = w.server.poolInvalidationTimeout := by
      rw [runUpTo_succ w evs i .poolChange hi]
      rw [(step_clock (runUpTo w evs i) .poolChange hci.1).2.2.2]
      exact (run_clock w (evs.take i) hclock).2.2.2
    have htmoj : (runUpTo w evs j).server.poolInvalidationTimeout
        = w.server.poolInvalidationTimeout := by
      rw [hcj.2.2.2, htmoi]
    -- conclude: the window since the last stamp is still open at j
    rw [← Bool.not_eq_true]
    rw [poolChange_invalidates_iff, htmoj]
    have h1 : (runUpTo w evs i).now
        ≤ (runUpTo w evs j).server.lastPoolInvalidate := by
      rw [← hstamp]
      exact hcj.2.1
    omega
  · intro k hk
    rw [runUpTo_succ w evs k .reorg hk]
    exact ⟨rfl, rfl⟩

/-- C3 witness: from `lastPoolInvalidate = 0` at time 1000 with the
default 200-unit window, the first pool change invalidates and an
immediate second one is dropped. -/
theorem poolchange_debounced_witness :
    stepInvalidates (runUpTo c3World c3Trace 0) .poolChange = true ∧
    stepInvalidates (runUpTo c3World c3Trace 1) .poolChange = false :=
  ⟨by decide,
    (poolchange_debounced_reorg_not c3World c3Trace 0 1 (by decide)
      (by decide) rfl rfl (by decide)).1 (by decide)⟩

/-! ## C4: the cache-slot / invalidation-signal invariant -/

/-- Propositional reading of `goodServer`. -/
theorem goodServer_iff (s : ServerState) :
    goodServer s = true ↔
      ((∀ c ∈ s.closedChans, c < s.nextChan) ∧
        (∃ c, s.cachedTemplateInvalidated = some c ∧ c < s.nextChan ∧
          c ∉ s.closedChans) ∧
        s.closedChans.Nodup) := by
  unfold goodServer
  rcases hc : s.cachedTemplateInvalidated with _ | c <;> simp [hc]
  tauto

/-- `invalidateCachedTemplate` preserves the channel invariant: it
closes the live channel (not yet closed) and installs the fresh
allocator value, which is distinct from every closed channel. -/
theorem goodServer_invalidate (s : ServerState)
    (h : goodServer s = true) :
    goodServer (invalidateCachedTemplate s) = true := by
  rw [goodServer_iff] at h ⊢
  obtain ⟨hall, ⟨c, hc, hlt, hnc⟩, hnd⟩ := h
  simp only [invalidateCachedTemplate, hc]
  refine ⟨?_, ⟨s.nextChan, rfl, by omega, ?_⟩, ?_⟩
  · intro c' hc'
    rcases List.mem_cons.mp hc' with h' | h'
    · omega
    · exact lt_trans (hall c' h') (by omega)
  · intro hmem
    rcases List.mem_cons.mp hmem with h' | h'
    · omega
    · exact absurd (hall _ h') (lt_irrefl _)
  · exact List.nodup_cons.mpr ⟨hnc, hnd⟩

/-- Every event preserves the channel invariant. -/
theorem step_goodServer (w : World) (e : Event)
    (h : goodServer w.server = true) :
    goodServer (step w e).server = true := by
  obtain ⟨-, -, hcases⟩ := step_frame w e
  rcases hcases with hs | ⟨t, hs⟩ | hs | hs <;> rw [hs]
  · exact h
  · rw [goodServer_iff] at h ⊢
    simpa using h
  · exact goodServer_invalidate _ h
  · refine goodServer_invalidate _ ?_
    rw [goodServer_iff] at h ⊢
    simpa using h

/-- The channel invariant holds along every trace. -/
theorem run_goodServer (w : World) (evs : List Event)
    (h : goodServer w.server = true) :
    goodServer (run w evs).server = true := by
  induction evs generalizing w with
  | nil => exact h
  | cons e es ih => exact ih (step w e) (step_goodServer w e h)

/-- C4: along every schedule of invalidations, callbacks and handler
steps from a well-formed server, the cache slot is nil or the installed
invalidation channel is unclosed; no channel is ever closed twice; and
`invalidateCachedTemplate` on the reached state nulls the slot, closes
exactly the current channel (appending it once to the closed list,
which stays duplicate-free), and installs a fresh channel that has
never been closed. -/
theorem template_cache_signal_invariant (w : World) (evs : List Event)
    (hgood : goodServer w.server = true) :
    goodServer (run w evs).server = true ∧
    ((run w evs).server.cachedTemplate = none ∨
      ∃ c, (run w evs).server.cachedTemplateInvalidated = some c ∧
        c ∉ (run w evs).server.closedChans) ∧
    (run w evs).server.closedChans.Nodup ∧
    (∀ c, (run w evs).server.cachedTemplateInvalidated = some c →
      (invalidateCachedTemplate (run w evs).server).cachedTemplate = none ∧
      c ∉ (run w evs).server.closedChans ∧
      (invalidateCachedTemplate (run w evs).server).closedChans
        = c :: (run w evs).server.closedChans ∧
      (invalidateCachedTemplate (run w evs).server).closedChans.Nodup ∧
      (invalidateCachedTemplate (run w evs).server).cachedTemplateInvalidated
        = some (run w evs).server.nextChan ∧
      (run w evs).server.nextChan ∉ (run w evs).server.closedChans) := by
  have hg := run_goodServer w evs hgood
  rw [goodServer_iff] at hg
  obtain ⟨hall, ⟨c, hc, hlt, hnc⟩, hnd⟩ := hg
  refine ⟨run_goodServer w evs hgood, Or.inr ⟨c, hc, hnc⟩, hnd, ?_⟩
  intro c' hc'
  rw [hc] at hc'
  injection hc' with hcc
  subst hcc
  have hfresh : (run w evs).server.nextChan ∉ (run w evs).server.closedChans := by
    intro hmem
    exact absurd (hall _ hmem) (lt_irrefl _)
  refine ⟨rfl, hnc, ?_, ?_, ?_, hfresh⟩
  · simp [invalidateCachedTemplate, hc]
  · rw [show (invalidateCachedTemplate (run w evs).server).closedChans
        = c :: (run w evs).server.closedChans by
          simp [invalidateCachedTemplate, hc]]
    exact List.nodup_cons.mpr ⟨hnc, hnd⟩
  · simp [invalidateCachedTemplate]

/-- C4 witness: the invariant instantiated on a mixed concrete schedule
from a freshly constructed server. -/
theorem template_cache_signal_invariant_witness :
    goodServer (run c4World c4Trace).server = true ∧
    (run c4World c4Trace).server.closedChans.Nodup :=
  ⟨(template_cache_signal_invariant c4World c4Trace (by decide)).1,
    (template_cache_signal_invariant c4World c4Trace (by decide)).2.2.1⟩
